import Mathlib

/-!
Shallow embedding of the core of the `vibecheck` repository:

* `src/backend/services/codebase_service.py` — directory scan with
  batched AI risk assessment and deterministic metric fallback
  (`scan_directory`, `_metric_based_score`, `_count_imports`,
  `_infer_language`);
* `src/backend/services/analytics_service.py` — cross-session analytics
  aggregation (`compute_analytics`, `_classify_questions`).

Modelling conventions:

* Python floats are modelled as exact rationals (`ℚ`); Python's
  2-decimal `round` (round-half-to-even) is modelled exactly on `ℚ`.
* Python's stable `list.sort` is modelled by a stable insertion sort
  (`sortDescBy` / `sortAscBy`); any two stable sorts with the same key
  agree, so this is faithful to CPython's timsort.
* The external OpenAI calls are inputs to the model: the scan takes a
  function from batch number to the (already JSON-parsed) response of
  that batch's gateway call, where `none` stands for a transport error,
  a JSON parse failure, or a non-list payload — in the source all of
  these produce zero `ai_results` writes for the batch.  A response
  item whose `"index"` entry is absent or non-numeric raises inside the
  per-item loop and is modelled as `index = none`.
* Filesystem discovery (`os.walk`) is an input: the scan takes the list
  of discovered files `(path, byte size, content)` in discovery order.
-/

namespace Vibecheck

/-! ### Rational rounding (Python `round(x, 2)`) -/

/-- Round a rational to the nearest integer, ties to even — the rounding
used by Python's builtin `round`. -/
def rndHalfEven (q : ℚ) : ℤ :=
  if q - (⌊q⌋ : ℚ) < 1/2 then ⌊q⌋
  else if 1/2 < q - (⌊q⌋ : ℚ) then ⌊q⌋ + 1
  else if ⌊q⌋ % 2 = 0 then ⌊q⌋ else ⌊q⌋ + 1

/-- Python `round(q, 2)`: round to two decimal places, ties to even. -/
def round2 (q : ℚ) : ℚ :=
  ((rndHalfEven (q * 100) : ℚ)) / 100

theorem rndHalfEven_intCast (n : ℤ) : rndHalfEven (n : ℚ) = n := by
  unfold rndHalfEven
  simp

theorem rndHalfEven_ge_floor (q : ℚ) : ⌊q⌋ ≤ rndHalfEven q := by
  unfold rndHalfEven
  split
  · exact le_refl _
  · split
    · exact Int.le_add_one (le_refl _)
    · split
      · exact le_refl _
      · exact Int.le_add_one (le_refl _)

theorem rndHalfEven_le_ceil (q : ℚ) : rndHalfEven q ≤ ⌊q⌋ + 1 := by
  unfold rndHalfEven
  split
  · exact Int.le_add_one (le_refl _)
  · split
    · exact le_refl _
    · split
      · exact Int.le_add_one (le_refl _)
      · exact le_refl _

/-- The exact-value case: if `q * 100` is an integer then 2-decimal
rounding leaves `q` unchanged. -/
theorem round2_eq_self_of_int (q : ℚ) (n : ℤ) (h : q * 100 = (n : ℚ)) :
    round2 q = q := by
  unfold round2
  rw [h, rndHalfEven_intCast, ← h]
  field_simp

/-- Two-decimal rounding keeps values inside `[0, 100]`. -/
theorem round2_mem_Icc (q : ℚ) (h0 : 0 ≤ q) (h1 : q ≤ 100) :
    0 ≤ round2 q ∧ round2 q ≤ 100 := by
  constructor
  · unfold round2
    have hfl : (0 : ℤ) ≤ ⌊q * 100⌋ := by
      apply Int.le_floor.mpr
      push_cast
      positivity
    have := rndHalfEven_ge_floor (q * 100)
    have hge : (0 : ℤ) ≤ rndHalfEven (q * 100) := le_trans hfl this
    positivity
  · unfold round2
    have hfl : ⌊q * 100⌋ ≤ 10000 := by
      have h1 : ⌊q * 100⌋ ≤ ⌊(10000 : ℚ)⌋ := Int.floor_le_floor (by linarith)
      have h2 : ⌊(10000 : ℚ)⌋ = (10000 : ℤ) := by
        rw [show ((10000 : ℚ)) = ((10000 : ℤ) : ℚ) by norm_num, Int.floor_intCast]
      omega
    have hle : rndHalfEven (q * 100) ≤ 10000 := by
      rcases lt_or_eq_of_le hfl with hlt | heq
      · have := rndHalfEven_le_ceil (q * 100)
        omega
      · have hq : q * 100 = 10000 := by
          have hfloor : (⌊q * 100⌋ : ℚ) ≤ q * 100 := Int.floor_le _
          rw [heq] at hfloor
          push_cast at hfloor
          linarith
        rw [hq, show ((10000 : ℚ)) = ((10000 : ℤ) : ℚ) by norm_num,
          rndHalfEven_intCast]
    have h3 : ((rndHalfEven (q * 100) : ℤ) : ℚ) ≤ 10000 := by exact_mod_cast hle
    calc ((rndHalfEven (q * 100) : ℤ) : ℚ) / 100 ≤ 10000 / 100 := by linarith
      _ = 100 := by norm_num

/-! ### Stable sorting (Python `list.sort`) -/

/-- Stable descending insertion: `x` goes after every element whose key
is strictly greater, before the first element whose key is `≤` its own.
This is the unique stable descending order, hence models CPython's
`list.sort(key=…, reverse=True)`. -/
def sInsertDesc {α : Type} {K : Type} [LinearOrder K] (key : α → K) (x : α) :
    List α → List α
  | [] => [x]
  | y :: ys => if key x < key y then y :: sInsertDesc key x ys else x :: y :: ys

/-- Stable insertion sort, descending by `key`. -/
def sortDescBy {α : Type} {K : Type} [LinearOrder K] (key : α → K) :
    List α → List α
  | [] => []
  | x :: xs => sInsertDesc key x (sortDescBy key xs)

theorem sInsertDesc_perm {α K : Type} [LinearOrder K] (key : α → K) (x : α)
    (l : List α) : List.Perm (sInsertDesc key x l) (x :: l) := by
  induction l with
  | nil => exact List.Perm.refl _
  | cons y ys ih =>
    unfold sInsertDesc
    split
    · exact List.Perm.trans (List.Perm.cons y ih) (List.Perm.swap x y ys)
    · exact List.Perm.refl _

theorem sortDescBy_perm {α K : Type} [LinearOrder K] (key : α → K)
    (l : List α) : List.Perm (sortDescBy key l) l := by
  induction l with
  | nil => exact List.Perm.refl _
  | cons x xs ih =>
    exact List.Perm.trans (sInsertDesc_perm key x (sortDescBy key xs))
      (List.Perm.cons x ih)

theorem sortDescBy_length {α K : Type} [LinearOrder K] (key : α → K)
    (l : List α) : (sortDescBy key l).length = l.length :=
  (sortDescBy_perm key l).length_eq

theorem sInsertDesc_pairwise {α K : Type} [LinearOrder K] (key : α → K)
    (x : α) (l : List α) (h : l.Pairwise (fun a b => key b ≤ key a)) :
    (sInsertDesc key x l).Pairwise (fun a b => key b ≤ key a) := by
  induction l with
  | nil => simp [sInsertDesc]
  | cons y ys ih =>
    unfold sInsertDesc
    rcases List.pairwise_cons.mp h with ⟨hy, hys⟩
    split
    · rename_i hlt
      refine List.pairwise_cons.mpr ⟨?_, ih hys⟩
      intro z hz
      have hz' : z ∈ x :: ys := (sInsertDesc_perm key x ys).mem_iff.mp hz
      rcases List.mem_cons.mp hz' with rfl | hz''
      · exact le_of_lt hlt
      · exact hy z hz''
    · rename_i hnlt
      refine List.pairwise_cons.mpr ⟨?_, h⟩
      intro z hz
      rcases List.mem_cons.mp hz with rfl | hz'
      · exact le_of_not_lt hnlt
      · exact le_trans (hy z hz') (le_of_not_lt hnlt)

theorem sortDescBy_pairwise {α K : Type} [LinearOrder K] (key : α → K)
    (l : List α) :
    (sortDescBy key l).Pairwise (fun a b => key b ≤ key a) := by
  induction l with
  | nil => simp [sortDescBy]
  | cons x xs ih => exact sInsertDesc_pairwise key x (sortDescBy key xs) ih

theorem sInsertDesc_filter_pos {α K : Type} [LinearOrder K] (key : α → K)
    (p : α → Bool) (x : α) (l : List α) (hx : p x = true)
    (hk : ∀ y, p y = true → ¬ key x < key y) :
    (sInsertDesc key x l).filter p = x :: l.filter p := by
  induction l with
  | nil => simp [sInsertDesc, hx]
  | cons y ys ih =>
    unfold sInsertDesc
    split
    · rename_i hlt
      have hpy : p y = false := by
        cases hpy : p y
        · rfl
        · exact absurd hlt (hk y hpy)
      simp [List.filter_cons, hpy, ih]
    · simp [List.filter_cons, hx]

theorem sInsertDesc_filter_neg {α K : Type} [LinearOrder K] (key : α → K)
    (p : α → Bool) (x : α) (l : List α) (hx : p x = false) :
    (sInsertDesc key x l).filter p = l.filter p := by
  induction l with
  | nil => simp [sInsertDesc, hx]
  | cons y ys ih =>
    unfold sInsertDesc
    split
    · simp [List.filter_cons, ih]
    · simp [List.filter_cons, hx]

/-- Stability of the descending sort: the subsequence of elements
satisfying a predicate that is incompatible with strict key comparison
(for instance "key equals `k`") is left untouched. -/
theorem sortDescBy_filter {α K : Type} [LinearOrder K] (key : α → K)
    (p : α → Bool) (l : List α)
    (hco : ∀ a b, p a = true → p b = true → ¬ key a < key b) :
    (sortDescBy key l).filter p = l.filter p := by
  induction l with
  | nil => rfl
  | cons x xs ih =>
    unfold sortDescBy
    cases hx : p x
    · rw [sInsertDesc_filter_neg key p x _ hx, ih, List.filter_cons, hx]
      simp
    · rw [sInsertDesc_filter_pos key p x _ hx (fun y hy => hco x y hx hy), ih,
        List.filter_cons, hx]
      simp

theorem sInsertDesc_map {α β K : Type} [LinearOrder K] (key : β → K)
    (f : α → β) (x : α) (l : List α) :
    (sInsertDesc (fun a => key (f a)) x l).map f =
      sInsertDesc key (f x) (l.map f) := by
  induction l with
  | nil => rfl
  | cons y ys ih =>
    unfold sInsertDesc
    by_cases h : key (f x) < key (f y)
    · simp only [if_pos h, List.map_cons, ih]
    · simp only [if_neg h, List.map_cons]

theorem sortDescBy_map {α β K : Type} [LinearOrder K] (key : β → K)
    (f : α → β) (l : List α) :
    (sortDescBy (fun a => key (f a)) l).map f = sortDescBy key (l.map f) := by
  induction l with
  | nil => rfl
  | cons x xs ih =>
    unfold sortDescBy
    rw [sInsertDesc_map, ih]
    rfl

/-! ### Small utilities shared by both services -/

/-- First-occurrence deduplication with an accumulator of already-seen
values; models iterating a Python `dict`/`set` built by insertion. -/
def dedupFirstAux {α : Type} [DecidableEq α] (seen : List α) :
    List α → List α
  | [] => []
  | x :: xs =>
    if x ∈ seen then dedupFirstAux seen xs
    else x :: dedupFirstAux (x :: seen) xs

/-- Distinct values of a list in order of first appearance. -/
def dedupFirst {α : Type} [DecidableEq α] (l : List α) : List α :=
  dedupFirstAux [] l

theorem dedupFirstAux_subset {α : Type} [DecidableEq α] (seen l : List α)
    (x : α) (hx : x ∈ dedupFirstAux seen l) : x ∈ l := by
  induction l generalizing seen with
  | nil => simp [dedupFirstAux] at hx
  | cons y ys ih =>
    unfold dedupFirstAux at hx
    split at hx
    · exact List.mem_cons_of_mem y (ih _ hx)
    · rcases List.mem_cons.mp hx with rfl | h
      · exact List.mem_cons_self x ys
      · exact List.mem_cons_of_mem y (ih _ h)

theorem dedupFirst_subset {α : Type} [DecidableEq α] (l : List α) (x : α)
    (hx : x ∈ dedupFirst l) : x ∈ l :=
  dedupFirstAux_subset [] l x hx

/-- Lookup in an association list built by repeated Python `dict`
assignment: the latest binding of a key wins. -/
def dictLookup {K V : Type} [DecidableEq K] (l : List (K × V)) (k : K) :
    Option V :=
  (l.reverse.find? (fun p => decide (p.1 = k))).map (fun p => p.2)

/-- Contiguous-sublist test on lists: true when the first list occurs
as a contiguous run inside the second. -/
def isSubListOf {α : Type} [DecidableEq α] (needle : List α) :
    List α → Bool
  | [] => needle.isEmpty
  | c :: rest => needle.isPrefixOf (c :: rest) || isSubListOf needle rest

/-- Python substring test `needle in haystack`. -/
def substrB (needle haystack : String) : Bool :=
  isSubListOf needle.data haystack.data

/-! ### Python string helpers used by the scanner -/

/-- Line splitting on `\n`, `\r\n` and `\r`; a trailing line terminator
does not produce an extra empty line.  Models Python `str.splitlines`
restricted to the common line boundaries. -/
def splitLinesAux : List Char → List Char → List (List Char)
  | acc, [] => if acc.isEmpty then [] else [acc.reverse]
  | acc, '\n' :: rest => acc.reverse :: splitLinesAux [] rest
  | acc, '\r' :: '\n' :: rest => acc.reverse :: splitLinesAux [] rest
  | acc, '\r' :: rest => acc.reverse :: splitLinesAux [] rest
  | acc, c :: rest => splitLinesAux (c :: acc) rest

/-- Python `content.splitlines()`. -/
def pySplitlines (s : String) : List String :=
  (splitLinesAux [] s.data).map List.asString

/-- Index of the last `'.'` in a character list, if any. -/
def lastDotIdx (l : List Char) : Option Nat :=
  (List.range l.length).foldl
    (fun acc i => if l.getD i ' ' = '.' then some i else acc) none

/-- Split a character list on a separator character; like Python
`str.split(sep)`, adjacent separators yield empty groups. -/
def splitOnChar (sep : Char) : List Char → List (List Char)
  | [] => [[]]
  | c :: rest =>
    if c = sep then [] :: splitOnChar sep rest
    else
      match splitOnChar sep rest with
      | [] => [[c]]
      | g :: gs => (c :: g) :: gs

/-- Basename of a POSIX path: the part after the last `'/'`. -/
def pyBasename (path : String) : String :=
  ((splitOnChar '/' path.data).getLastD []).asString

/-- Lowercase a string character by character (ASCII, which is all the
extension table needs). -/
def strToLower (s : String) : String :=
  (s.data.map Char.toLower).asString

/-- First `n` characters of a string (Python slice `s[:n]`). -/
def strTake (s : String) (n : Nat) : String :=
  (s.data.take n).asString

/-- Lexicographic strict comparison of character lists by code point —
how CPython compares strings, hence how ISO-8601 datetime strings
order as datetimes. -/
def charListLt : List Char → List Char → Bool
  | [], [] => false
  | [], _ :: _ => true
  | _ :: _, [] => false
  | a :: as, b :: bs =>
    if a < b then true else if b < a then false else charListLt as bs

/-- Python `a < b` on strings. -/
def strLtB (a b : String) : Bool := charListLt a.data b.data

/-- Stable ascending insertion with a boolean strict order (models
`list.sort(key=…)` for keys that are not a Lean `LinearOrder`). -/
def sInsertAscB {α : Type} (ltB : α → α → Bool) (x : α) :
    List α → List α
  | [] => [x]
  | y :: ys => if ltB y x then y :: sInsertAscB ltB x ys else x :: y :: ys

/-- Stable insertion sort, ascending by a boolean strict order. -/
def sortAscByB {α : Type} (ltB : α → α → Bool) : List α → List α
  | [] => []
  | x :: xs => sInsertAscB ltB x (sortAscByB ltB xs)

/-- Stem of `os.path.splitext`: the basename cut at its last dot, unless
every character before that dot is itself a dot (so `".bashrc"` keeps
its name), matching CPython's `posixpath.splitext`. -/
def pyStem (path : String) : String :=
  let b := (pyBasename path).data
  match lastDotIdx b with
  | none => List.asString b
  | some d =>
    if (b.take d).any (fun c => c ≠ '.') then List.asString (b.take d)
    else List.asString b

/-- Extension of `os.path.splitext` (includes the leading dot). -/
def pyExt (path : String) : String :=
  let b := (pyBasename path).data
  match lastDotIdx b with
  | none => ""
  | some d =>
    if (b.take d).any (fun c => c ≠ '.') then List.asString (b.drop d)
    else ""

/-- Extension-to-language table `_EXT_TO_LANGUAGE`. -/
def extToLanguage : List (String × String) :=
  [(".py", "python"), (".ts", "typescript"), (".tsx", "typescript"),
   (".js", "javascript"), (".go", "go"), (".rs", "rust"),
   (".java", "java")]

/-- Python `str.lstrip(".")`. -/
def lstripDots (s : String) : String :=
  List.asString (s.data.dropWhile (fun c => c = '.'))

/-- Embedding of `_infer_language`. -/
def inferLanguage (ext : String) : String :=
  match dictLookup extToLanguage (strToLower ext) with
  | some lang => lang
  | none => if lstripDots ext = "" then "unknown" else lstripDots ext

/-- Import/reference line markers `_IMPORT_PREFIXES`. -/
def importMarkers : List String :=
  ["import ", "from ", "require(", "use "]

/-- Python `str.lstrip()`: drop leading whitespace. -/
def pyLstrip (s : String) : String :=
  (s.data.dropWhile Char.isWhitespace).asString

/-- Embedding of `_count_imports`: lines whose left-stripped text starts
with one of the markers. -/
def countImports (lines : List String) : Nat :=
  lines.countP
    (fun line =>
      importMarkers.any (fun m => m.data.isPrefixOf (pyLstrip line).data))

/-- Relative path of a discovered file with respect to the scan root;
models `os.path.relpath` for paths produced by `os.walk(directory)`,
which always lie below the root. -/
def relPathOf (dir path : String) : String :=
  if (dir ++ "/").data.isPrefixOf path.data then
    List.asString (path.data.drop (dir.length + 1))
  else path

/-! ### Scanner data model (`codebase_service.scan_directory`) -/

/-- One file produced by the discovery walk of step 1: absolute path,
size in bytes (`os.path.getsize`, 0 on `OSError`) and the file's text
(`""` on a read or decode failure, per step 2). -/
structure DFile where
  path : String
  size : Nat
  content : String
deriving DecidableEq

/-- Per-file metric record built in step 2 of `scan_directory`
(the `file_data` dicts). -/
structure FData where
  path : String
  rel_path : String
  language : String
  line_count : Nat
  import_count : Nat
  content : String
  stem : String
deriving DecidableEq

instance : Inhabited FData :=
  ⟨{ path := "", rel_path := "", language := "", line_count := 0,
     import_count := 0, content := "", stem := "" }⟩

/-- Step 2 of `scan_directory` for one file. -/
def mkFData (dir : String) (f : DFile) : FData :=
  { path := f.path
    rel_path := relPathOf dir f.path
    language := inferLanguage (pyExt f.path)
    line_count := (pySplitlines f.content).length
    import_count := countImports (pySplitlines f.content)
    content := f.content
    stem := pyStem f.path }

/-- Step 1's cap: when more candidates were discovered than
`max_files`, keep the `max_files` largest by size (stable descending
sort, so ties keep discovery order); otherwise keep the discovery list
untouched. -/
def capBySize {α : Type} (size : α → Nat) (l : List α) (max_files : Nat) :
    List α :=
  if max_files < l.length then (sortDescBy size l).take max_files else l

/-- Step 3: reference weight of file `i` — how many *other* files'
contents contain file `i`'s stem as a substring. -/
def importWeightAux (stem : String) (i : Nat) : Nat → List FData → Nat
  | _, [] => 0
  | j, fd :: rest =>
    (if j ≠ i ∧ substrB stem fd.content then 1 else 0) +
      importWeightAux stem i (j + 1) rest

/-- Reference weight (`fdata["import_weight"]`) of the `i`-th file. -/
def importWeight (datas : List FData) (i : Nat) : Nat :=
  importWeightAux ((datas.getD i default).stem) i 0 datas

/-- One element of a parsed gateway risk response.  A `none` field
models a JSON object missing that key; for `index` it also models a
non-numeric value, which raises inside the write loop. -/
structure AIItem where
  index : Option Int
  risk_score : Option ℚ
  risk_factors : Option (List String)
  blast_radius : Option String
deriving DecidableEq

/-- Sequential write loop of step 4 for one parsed batch response:
`ai_results[batch_start + item["index"]] = item` for each item until
the first item without a usable `"index"`, whose `KeyError` aborts the
loop for the rest of the batch while keeping earlier writes.  Writes
are accumulated by prepending, so the most recent write shadows older
ones, like Python `dict` assignment. -/
def procItems (bstart : Int) : List AIItem → List (Int × AIItem) →
    List (Int × AIItem)
  | [], acc => acc
  | it :: rest, acc =>
    match it.index with
    | none => acc
    | some i => procItems bstart rest ((bstart + i, it) :: acc)

/-- Step 4: process the first `b` batches.  `g b` is the parsed JSON of
the gateway call for the batch starting at file `10 * b`; `none` covers
a transport error, a JSON parse failure and a non-list payload, all of
which leave `ai_results` untouched for that batch. -/
def buildAI (g : Nat → Option (List AIItem)) : Nat → List (Int × AIItem)
  | 0 => []
  | b + 1 =>
    match g b with
    | none => buildAI g b
    | some items => procItems (10 * b) items (buildAI g b)

/-- Lookup `ai_results.get(idx)`; the most recent write wins. -/
def lookupAI (m : List (Int × AIItem)) (i : Int) : Option AIItem :=
  (m.find? (fun p => decide (p.1 = i))).map (fun p => p.2)

/-- Number of gateway calls issued for `n` files:
`range(0, n, batch_size)` with `batch_size = 10`. -/
def numBatches (n : Nat) : Nat := (n + 9) / 10

/-- Embedding of `_metric_based_score`: the deterministic fallback used
when AI assessment is unavailable.  As in the source, the first
argument (the import count) is unused. -/
def metric_based_score (import_count line_count import_weight : Nat) : ℚ :=
  min (100 : ℚ) ((import_weight : ℚ) * 10 + min ((line_count : ℚ) / 5) 50)

/-- Fallback blast-radius string derived from the reference weight. -/
def fallbackBlast (w : Nat) : String :=
  if w > 0 then "Imported by " ++ toString w ++ " module(s)"
  else "No direct imports detected"

/-- One entry of `ScanResult.files`. -/
structure ResultFile where
  path : String
  relative_path : String
  language : String
  line_count : Nat
  import_count : Nat
  risk_score : ℚ
  risk_factors : List String
  blast_radius : String
  is_focus : Bool
deriving DecidableEq

instance : Inhabited ResultFile :=
  ⟨{ path := "", relative_path := "", language := "", line_count := 0,
     import_count := 0, risk_score := 0, risk_factors := [],
     blast_radius := "", is_focus := false }⟩

/-- Step 5 for the `i`-th file: keep the AI-provided values when
`ai_results` has an entry for `i`, otherwise fall back to the metric
formula with empty risk factors and a weight-derived blast radius. -/
def mkResultFile (datas : List FData) (ai : List (Int × AIItem))
    (focus : List String) (i : Nat) (fd : FData) : ResultFile :=
  match lookupAI ai (i : Int) with
  | some item =>
    { path := fd.path
      relative_path := fd.rel_path
      language := fd.language
      line_count := fd.line_count
      import_count := fd.import_count
      risk_score := round2 (item.risk_score.getD 0)
      risk_factors := item.risk_factors.getD []
      blast_radius := item.blast_radius.getD ""
      is_focus := decide (fd.path ∈ focus) }
  | none =>
    { path := fd.path
      relative_path := fd.rel_path
      language := fd.language
      line_count := fd.line_count
      import_count := fd.import_count
      risk_score :=
        round2 (metric_based_score fd.import_count fd.line_count
          (importWeight datas i))
      risk_factors := []
      blast_radius := fallbackBlast (importWeight datas i)
      is_focus := decide (fd.path ∈ focus) }

/-- Step 5's loop over `enumerate(file_data)`, carrying the running
global index. -/
def mergeAux (datas : List FData) (ai : List (Int × AIItem))
    (focus : List String) : Nat → List FData → List ResultFile
  | _, [] => []
  | i, fd :: rest =>
    mkResultFile datas ai focus i fd :: mergeAux datas ai focus (i + 1) rest

/-- The capped discovery list after step 2's metric extraction: the
`file_data` list of the source. -/
def scanDatas (dir : String) (discovered : List DFile)
    (max_files : Nat) : List FData :=
  (capBySize (fun f => f.size) discovered max_files).map (mkFData dir)

/-- The `result_files` list of step 5, before the final sort. -/
def scanMergedFiles (dir : String) (discovered : List DFile)
    (max_files : Nat) (g : Nat → Option (List AIItem))
    (focus : List String) : List ResultFile :=
  mergeAux (scanDatas dir discovered max_files)
    (buildAI g (numBatches (scanDatas dir discovered max_files).length))
    focus 0 (scanDatas dir discovered max_files)

/-- Return value of `scan_directory`. -/
structure ScanResult where
  root : String
  file_count : Nat
  files : List ResultFile
deriving DecidableEq

/-- Embedding of `scan_directory`.  `discovered` is the output of the
step 1 walk in discovery order; `g` maps a batch number to the parsed
response of that batch's gateway call (`none` = failure); `focus` is
the pinned-path list.  The early `if not file_paths` return is kept
from the source. -/
def scan_directory (dir : String) (discovered : List DFile)
    (max_files : Nat) (g : Nat → Option (List AIItem))
    (focus : List String) : ScanResult :=
  if (capBySize (fun f => f.size) discovered max_files).isEmpty then
    { root := dir, file_count := 0, files := [] }
  else
    { root := dir
      file_count := (sortDescBy (fun f => f.risk_score)
        (scanMergedFiles dir discovered max_files g focus)).length
      files := sortDescBy (fun f => f.risk_score)
        (scanMergedFiles dir discovered max_files g focus) }

/-! ### Analytics data model (`analytics_service`) -/

/-- A stored session row, as read by `compute_analytics`. -/
structure PSession where
  id : Nat
  title : String
deriving DecidableEq

/-- One question dict of a stored quiz (`q["id"]`, `q["question"]`). -/
structure PQuestion where
  id : String
  question : String
deriving DecidableEq

/-- A stored quiz row. -/
structure PQuiz where
  id : Nat
  session_id : Nat
  questions : List PQuestion
deriving DecidableEq

/-- One evaluation dict stored on an attempt; `none` models a missing
JSON key, replaced by the `dict.get` defaults `0` / `"incorrect"`. -/
structure PEval where
  question_id : String
  score : Option ℚ
  verdict : Option String
deriving DecidableEq

/-- A stored attempt row.  `created_at` is the ISO-8601 text of the
(non-null) timestamp column: comparing these strings is comparing the
datetimes, and `.date().isoformat()` is the first 10 characters. -/
structure PAttempt where
  session_id : Nat
  quiz_id : Nat
  score : ℚ
  created_at : String
  evaluations : List PEval
deriving DecidableEq

/-- One enriched flat evaluation entry (`flat_evals` element). -/
structure FlatEval where
  question_id : String
  quiz_id : Nat
  question_text : String
  session_id : Nat
  session_title : String
  score : ℚ
  verdict : String
  date : String
deriving DecidableEq

/-- Per-topic aggregation result (`TopicScore` schema). -/
structure TopicStat where
  topic : String
  avg_score : ℚ
  question_count : Nat
  sessions_appeared_in : Nat
  is_blind_spot : Bool
deriving DecidableEq

/-- One point of the score trend. -/
structure TrendPoint where
  session_id : Nat
  title : String
  score : ℚ
  date : String
deriving DecidableEq

/-- Return value of `compute_analytics` (`AnalyticsOut` schema). -/
structure AnalyticsOut where
  total_sessions : Nat
  completed_sessions : Nat
  total_questions_answered : Nat
  overall_avg_score : ℚ
  topic_scores : List TopicStat
  blind_spots : List TopicStat
  trend : List TrendPoint
deriving DecidableEq

/-- Default topic label used on any classification shortfall. -/
def defaultTopic : String := "General Concepts"

/-- Embedding of `_classify_questions`.  `resp` is the parsed gateway
payload: `none` models a transport failure, a JSON parse error or a
non-list value, all of which yield the full-batch default fallback.
An empty input returns `[]` before any gateway call is made. -/
def classifyQuestions (resp : Option (List String))
    (qs : List String) : List String :=
  if qs.isEmpty then []
  else
    match resp with
    | none => List.replicate qs.length defaultTopic
    | some topics =>
      (topics ++ List.replicate (qs.length - topics.length) defaultTopic).take
        qs.length

/-- Session title for a session id, with the `f"Session {id}"` default
for ids that have no session row. -/
def sessionTitle (sessions : List PSession) (sid : Nat) : String :=
  match dictLookup (sessions.map (fun s => (s.id, s))) sid with
  | some s => s.title
  | none => "Session " ++ toString sid

/-- The `question_lookup` table: `(quiz_id, question_id) -> question`. -/
def questionPairs (quizzes : List PQuiz) : List ((Nat × String) × PQuestion) :=
  (quizzes.map (fun quiz =>
    quiz.questions.map (fun q => ((quiz.id, q.id), q)))).flatten

/-- Question text of `(quiz_id, question_id)`, defaulting to `""`. -/
def questionTextOf (qlk : List ((Nat × String) × PQuestion))
    (quiz_id : Nat) (qid : String) : String :=
  match dictLookup qlk (quiz_id, qid) with
  | some q => q.question
  | none => ""

/-- Step 3 of `compute_analytics`: flatten every attempt's evaluations
into enriched entries. -/
def flatEvalsOf (sessions : List PSession) (quizzes : List PQuiz)
    (attempts : List PAttempt) : List FlatEval :=
  let qlk := questionPairs quizzes
  (attempts.map (fun a =>
    a.evaluations.map (fun ev =>
      { question_id := ev.question_id
        quiz_id := a.quiz_id
        question_text := questionTextOf qlk a.quiz_id ev.question_id
        session_id := a.session_id
        session_title := sessionTitle sessions a.session_id
        score := ev.score.getD 0
        verdict := ev.verdict.getD "incorrect"
        date := strTake a.created_at 10 }))).flatten

/-- Topic resolved for a question text from the `text_to_topic` dict
(`zip` of the unique texts with the classifier labels). -/
def topicFor (pairs : List (String × String)) (text : String) : String :=
  match pairs.find? (fun p => decide (p.1 = text)) with
  | some p => p.2
  | none => defaultTopic

/-- Step 5 for one topic: scores of its evaluations in flat order,
their count and mean, the distinct-session count, and the blind-spot
flag computed from the unrounded mean. -/
def statFor (wt : List (FlatEval × String)) (t : String) : TopicStat :=
  let scores := (wt.filter (fun p => decide (p.2 = t))).map
    (fun p => p.1.score)
  let avg : ℚ := if scores.isEmpty then 0 else scores.sum / scores.length
  { topic := t
    avg_score := round2 avg
    question_count := scores.length
    sessions_appeared_in :=
      (dedupFirst ((wt.filter (fun p => decide (p.2 = t))).map
        (fun p => p.1.session_id))).length
    is_blind_spot := decide (avg < 60) && decide (2 ≤ scores.length) }

/-- Step 6's first half: latest attempt per session id, keyed in
first-appearance order; a later attempt replaces the stored one only
when its `created_at` is strictly greater. -/
def latestPerSessionAux (acc : List (Nat × PAttempt)) :
    List PAttempt → List (Nat × PAttempt)
  | [] => acc
  | a :: rest =>
    match acc.find? (fun p => decide (p.1 = a.session_id)) with
    | none => latestPerSessionAux (acc ++ [(a.session_id, a)]) rest
    | some p =>
      if strLtB p.2.created_at a.created_at then
        latestPerSessionAux
          (acc.map (fun q => if q.1 = a.session_id then (q.1, a) else q)) rest
      else latestPerSessionAux acc rest

/-- The `latest_attempt_per_session` dict as an ordered list. -/
def latestPerSession (attempts : List PAttempt) : List (Nat × PAttempt) :=
  latestPerSessionAux [] attempts

/-- Step 6's second half: one trend point per session, sorted by date
string ascending (stable). -/
def trendOf (sessions : List PSession) (attempts : List PAttempt) :
    List TrendPoint :=
  sortAscByB (fun a b => strLtB a.date b.date)
    ((latestPerSession attempts).map (fun p =>
      { session_id := p.1
        title := sessionTitle sessions p.1
        score := round2 p.2.score
        date := strTake p.2.created_at 10 }))

/-- Embedding of `compute_analytics`.  The database contents and the
parsed topic-classification payload are inputs; everything else follows
the source's steps 1-7. -/
def compute_analytics (sessions : List PSession) (quizzes : List PQuiz)
    (attempts : List PAttempt) (resp : Option (List String)) :
    AnalyticsOut :=
  if attempts.isEmpty then
    { total_sessions := sessions.length
      completed_sessions := 0
      total_questions_answered := 0
      overall_avg_score := 0
      topic_scores := []
      blind_spots := []
      trend := [] }
  else
    let flat := flatEvalsOf sessions quizzes attempts
    let uniq := dedupFirst (flat.map (fun fe => fe.question_text))
    let labels := classifyQuestions resp uniq
    let pairs := uniq.zip labels
    let wt := flat.map (fun fe => (fe, topicFor pairs fe.question_text))
    let topics := dedupFirst (wt.map (fun p => p.2))
    let topic_scores := topics.map (statFor wt)
    let allScores := flat.map (fun fe => fe.score)
    { total_sessions := sessions.length
      completed_sessions :=
        (dedupFirst (attempts.map (fun a => a.session_id))).length
      total_questions_answered := flat.length
      overall_avg_score :=
        round2 (if allScores.isEmpty then 0
          else allScores.sum / allScores.length)
      topic_scores := topic_scores
      blind_spots := topic_scores.filter (fun t => t.is_blind_spot)
      trend := trendOf sessions attempts }

/-! ### Helper lemmas about the scan pipeline -/

theorem mergeAux_length (datas : List FData) (ai : List (Int × AIItem))
    (focus : List String) (l : List FData) :
    ∀ s, (mergeAux datas ai focus s l).length = l.length := by
  induction l with
  | nil => intro s; rfl
  | cons fd rest ih =>
    intro s
    simp [mergeAux, ih]

theorem mergeAux_getD (datas : List FData) (ai : List (Int × AIItem))
    (focus : List String) (l : List FData) :
    ∀ s i, i < l.length →
      (mergeAux datas ai focus s l).getD i default =
        mkResultFile datas ai focus (s + i) (l.getD i default) := by
  induction l with
  | nil => intro s i h; simp at h
  | cons fd rest ih =>
    intro s i h
    cases i with
    | zero => simp [mergeAux]
    | succ i =>
      have h' : i < rest.length := by simpa using h
      simp only [mergeAux, List.getD_cons_succ]
      rw [ih (s + 1) i h']
      congr 1
      omega

theorem mergeAux_mem (datas : List FData) (ai : List (Int × AIItem))
    (focus : List String) (l : List FData) :
    ∀ s f, f ∈ mergeAux datas ai focus s l →
      ∃ i fd, f = mkResultFile datas ai focus i fd := by
  induction l with
  | nil => intro s f h; simp [mergeAux] at h
  | cons fd rest ih =>
    intro s f h
    rcases List.mem_cons.mp h with rfl | h'
    · exact ⟨s, fd, rfl⟩
    · exact ih (s + 1) f h'

theorem mergeAux_map_path (datas : List FData) (ai : List (Int × AIItem))
    (focus : List String) (l : List FData) :
    ∀ s, (mergeAux datas ai focus s l).map (fun f => f.path) =
      l.map (fun fd => fd.path) := by
  induction l with
  | nil => intro s; rfl
  | cons fd rest ih =>
    intro s
    have hpath : (mkResultFile datas ai focus s fd).path = fd.path := by
      unfold mkResultFile
      cases lookupAI ai (s : Int) <;> rfl
    simp [mergeAux, ih, hpath]

theorem capBySize_length {α : Type} (size : α → Nat) (l : List α)
    (m : Nat) : (capBySize size l m).length = min l.length m := by
  unfold capBySize
  split
  · rename_i h
    rw [List.length_take, sortDescBy_length]
    omega
  · rename_i h
    omega

theorem capBySize_of_le {α : Type} (size : α → Nat) (l : List α) (m : Nat)
    (h : l.length ≤ m) : capBySize size l m = l := by
  unfold capBySize
  rw [if_neg]
  omega

theorem scan_files_length (dir : String) (discovered : List DFile)
    (max_files : Nat) (g : Nat → Option (List AIItem))
    (focus : List String) :
    (scan_directory dir discovered max_files g focus).files.length =
      min discovered.length max_files := by
  unfold scan_directory
  split
  · rename_i h
    have hlen := capBySize_length (fun f => f.size) discovered max_files
    rw [List.isEmpty_iff] at h
    rw [h] at hlen
    simp only [List.length_nil] at hlen
    show ([] : List ResultFile).length = _
    simp only [List.length_nil]
    omega
  · simp only [scanMergedFiles, scanDatas]
    rw [sortDescBy_length, mergeAux_length, List.length_map,
      capBySize_length]

theorem scan_files_perm (dir : String) (discovered : List DFile)
    (max_files : Nat) (g : Nat → Option (List AIItem))
    (focus : List String) :
    List.Perm (scan_directory dir discovered max_files g focus).files
      (scanMergedFiles dir discovered max_files g focus) := by
  unfold scan_directory
  split
  · rename_i h
    rw [List.isEmpty_iff] at h
    simp only [scanMergedFiles, scanDatas, h]
    exact List.Perm.refl _
  · exact sortDescBy_perm _ _

theorem procItems_mem (bstart : Int) (items : List AIItem)
    (acc : List (Int × AIItem)) (p : Int × AIItem)
    (hp : p ∈ procItems bstart items acc) :
    p.2 ∈ items ∨ p ∈ acc := by
  induction items generalizing acc with
  | nil => exact Or.inr hp
  | cons it rest ih =>
    unfold procItems at hp
    cases hidx : it.index with
    | none =>
      rw [hidx] at hp
      exact Or.inr hp
    | some i =>
      rw [hidx] at hp
      rcases ih _ hp with h | h
      · exact Or.inl (List.mem_cons_of_mem it h)
      · rcases List.mem_cons.mp h with rfl | h'
        · exact Or.inl (List.mem_cons_self it rest)
        · exact Or.inr h'

theorem buildAI_mem (g : Nat → Option (List AIItem)) (nb : Nat)
    (p : Int × AIItem) (hp : p ∈ buildAI g nb) :
    ∃ b, b < nb ∧ ∃ items, g b = some items ∧ p.2 ∈ items := by
  induction nb with
  | zero => simp [buildAI] at hp
  | succ b ih =>
    unfold buildAI at hp
    cases hg : g b with
    | none =>
      rw [hg] at hp
      rcases ih hp with ⟨b', hb', rest⟩
      exact ⟨b', Nat.lt_succ_of_lt hb', rest⟩
    | some items =>
      rw [hg] at hp
      rcases procItems_mem _ _ _ _ hp with h | h
      · exact ⟨b, Nat.lt_succ_self b, items, hg, h⟩
      · rcases ih h with ⟨b', hb', rest⟩
        exact ⟨b', Nat.lt_succ_of_lt hb', rest⟩

theorem lookupAI_provenance (g : Nat → Option (List AIItem)) (nb : Nat)
    (i : Int) (it : AIItem) (h : lookupAI (buildAI g nb) i = some it) :
    ∃ b, b < nb ∧ ∃ items, g b = some items ∧ it ∈ items := by
  unfold lookupAI at h
  cases hf : (buildAI g nb).find? (fun p => decide (p.1 = i)) with
  | none => rw [hf] at h; simp at h
  | some p =>
    rw [hf] at h
    simp at h
    have hmem : p ∈ buildAI g nb := List.mem_of_find?_eq_some hf
    rcases buildAI_mem g nb p hmem with ⟨b, hb, items, hg, hit⟩
    exact ⟨b, hb, items, hg, h ▸ hit⟩

theorem metric_based_score_bounds (a lc w : Nat) :
    0 ≤ metric_based_score a lc w ∧ metric_based_score a lc w ≤ 100 := by
  unfold metric_based_score
  constructor
  · apply le_min
    · norm_num
    · have h1 : (0 : ℚ) ≤ (w : ℚ) * 10 := by positivity
      have h2 : (0 : ℚ) ≤ min ((lc : ℚ) / 5) 50 := by
        apply le_min
        · positivity
        · norm_num
      linarith
  · exact min_le_left _ _

theorem metric_based_score_mul100_int (a lc w : Nat) :
    ∃ n : ℤ, metric_based_score a lc w * 100 = (n : ℚ) := by
  unfold metric_based_score
  by_cases h1 : (lc : ℚ) / 5 ≤ 50
  · rw [min_eq_left h1]
    by_cases h2 : (100 : ℚ) ≤ (w : ℚ) * 10 + (lc : ℚ) / 5
    · rw [min_eq_left h2]
      exact ⟨10000, by norm_num⟩
    · rw [min_eq_right (le_of_not_le h2)]
      refine ⟨1000 * (w : ℤ) + 20 * (lc : ℤ), ?_⟩
      push_cast
      ring
  · rw [min_eq_right (le_of_not_le h1)]
    by_cases h2 : (100 : ℚ) ≤ (w : ℚ) * 10 + 50
    · rw [min_eq_left h2]
      exact ⟨10000, by norm_num⟩
    · rw [min_eq_right (le_of_not_le h2)]
      refine ⟨1000 * (w : ℤ) + 5000, ?_⟩
      push_cast
      ring

theorem round2_metric (a lc w : Nat) :
    round2 (metric_based_score a lc w) = metric_based_score a lc w := by
  rcases metric_based_score_mul100_int a lc w with ⟨n, hn⟩
  exact round2_eq_self_of_int _ n hn

/-! ### Claim C4 — metric fallback formula, factors and blast radius -/

/-- C4: every file that falls back to metric-based scoring has
`score = min(100, reference_weight*10 + min(line_count/5, 50))` (the
stored 2-decimal rounding leaves this value unchanged), empty risk
factors, and blast radius "Imported by N module(s)" for weight N > 0 or
"No direct imports detected" for weight 0; in particular, in a 3-file
scan where a 50-line `auth.py` is referenced by the 2 other files and
the gateway is unreachable, `auth.py` gets weight 2 and score 30. -/
theorem C4_metric_fallback :
    (∀ (dir : String) (discovered : List DFile) (max_files : Nat)
        (g : Nat → Option (List AIItem)) (focus : List String) (i : Nat),
      i < (scanDatas dir discovered max_files).length →
      lookupAI (buildAI g (numBatches (scanDatas dir discovered
        max_files).length)) (i : Int) = none →
      ((scanMergedFiles dir discovered max_files g focus).getD i
            default).risk_score =
          metric_based_score
            ((scanDatas dir discovered max_files).getD i default).import_count
            ((scanDatas dir discovered max_files).getD i default).line_count
            (importWeight (scanDatas dir discovered max_files) i) ∧
        ((scanMergedFiles dir discovered max_files g focus).getD i
            default).risk_factors = [] ∧
        ((scanMergedFiles dir discovered max_files g focus).getD i
            default).blast_radius =
          fallbackBlast (importWeight (scanDatas dir discovered max_files) i)) ∧
    (scan_directory "/r"
        [⟨"/r/auth.py", 500, String.join (List.replicate 50 "x\n")⟩,
         ⟨"/r/b.py", 20, "import auth\n"⟩,
         ⟨"/r/c.py", 30, "import auth\n"⟩] 10 (fun _ => none) []).files.map
        (fun f => (f.relative_path, f.line_count, f.risk_score,
          f.risk_factors, f.blast_radius)) =
      [("auth.py", 50, 30, [], "Imported by 2 module(s)"),
       ("b.py", 1, 1/5, [], "No direct imports detected"),
       ("c.py", 1, 1/5, [], "No direct imports detected")] := by
  constructor
  · intro dir discovered max_files g focus i hi hnone
    have hmerge := mergeAux_getD (scanDatas dir discovered max_files)
      (buildAI g (numBatches (scanDatas dir discovered max_files).length))
      focus (scanDatas dir discovered max_files) 0 i hi
    simp only [Nat.zero_add] at hmerge
    unfold scanMergedFiles
    rw [hmerge]
    unfold mkResultFile
    rw [hnone]
    refine ⟨?_, rfl, rfl⟩
    exact round2_metric _ _ _
  · set_option maxRecDepth 4000 in with_unfolding_all decide

/-- Witness for C4: the 3-file scenario itself, instantiating the
general fallback characterization at file index 0 (`auth.py`). -/
theorem C4_metric_fallback_witness :
    ((scanMergedFiles "/r"
        [⟨"/r/auth.py", 500, String.join (List.replicate 50 "x\n")⟩,
         ⟨"/r/b.py", 20, "import auth\n"⟩,
         ⟨"/r/c.py", 30, "import auth\n"⟩] 10 (fun _ => none) []).getD 0
          default).risk_factors = [] :=
  (C4_metric_fallback.1 "/r"
    [⟨"/r/auth.py", 500, String.join (List.replicate 50 "x\n")⟩,
     ⟨"/r/b.py", 20, "import auth\n"⟩,
     ⟨"/r/c.py", 30, "import auth\n"⟩] 10 (fun _ => none) [] 0
    (by decide) (by decide)).2.1

/-! ### Claim C6 — classifier padding, truncation and full fallback -/

/-- C6: the classifier's label list always has exactly the input's
length; a failed or non-list gateway payload assigns every input the
default label; a short payload is padded with the default label and a
long payload is truncated. -/
theorem C6_classify_shape :
    (∀ (resp : Option (List String)) (qs : List String),
      (classifyQuestions resp qs).length = qs.length) ∧
    (∀ qs : List String,
      classifyQuestions none qs = List.replicate qs.length defaultTopic) ∧
    (∀ (ts qs : List String), ts.length < qs.length →
      classifyQuestions (some ts) qs =
        ts ++ List.replicate (qs.length - ts.length) defaultTopic) ∧
    (∀ (ts qs : List String), qs.length ≤ ts.length →
      classifyQuestions (some ts) qs = ts.take qs.length) := by
  refine ⟨?_, ?_, ?_, ?_⟩
  · intro resp qs
    unfold classifyQuestions
    cases hq : qs.isEmpty
    · cases resp with
      | none => simp [List.length_replicate]
      | some ts =>
        simp only [Bool.false_eq_true, if_false, List.length_take,
          List.length_append, List.length_replicate]
        omega
    · rw [List.isEmpty_iff] at hq
      simp [hq]
  · intro qs
    unfold classifyQuestions
    cases hq : qs.isEmpty
    · simp
    · rw [List.isEmpty_iff] at hq
      simp [hq]
  · intro ts qs hlt
    unfold classifyQuestions
    have hq : qs.isEmpty = false := by
      cases qs
      · simp at hlt
      · rfl
    rw [hq]
    simp only [Bool.false_eq_true, if_false]
    apply List.take_of_length_le
    simp only [List.length_append, List.length_replicate]
    omega
  · intro ts qs hle
    unfold classifyQuestions
    cases hq : qs.isEmpty
    · simp only [Bool.false_eq_true, if_false]
      have : qs.length - ts.length = 0 := by omega
      rw [this]
      simp [List.take_append_of_le_length hle]
    · rw [List.isEmpty_iff] at hq
      simp [hq]

/-- Witness for C6: a malformed payload for 5 unique questions makes
all 5 labels the default "General Concepts", and a 2-label response for
4 questions is padded with 2 default labels. -/
theorem C6_classify_shape_witness :
    classifyQuestions none ["q1", "q2", "q3", "q4", "q5"] =
        List.replicate 5 defaultTopic ∧
      classifyQuestions (some ["A", "B"]) ["q1", "q2", "q3", "q4"] =
        ["A", "B"] ++ List.replicate 2 defaultTopic :=
  ⟨C6_classify_shape.2.1 ["q1", "q2", "q3", "q4", "q5"],
    C6_classify_shape.2.2.1 ["A", "B"] ["q1", "q2", "q3", "q4"]
      (by decide)⟩

/-! ### Claim C1 — blind-spot flag versus the rounded average -/

theorem statFor_mem_spec (wt : List (FlatEval × String)) (t : String)
    (ht : t ∈ dedupFirst (wt.map (fun p => p.2))) :
    ∃ scores : List ℚ, scores ≠ [] ∧
      (statFor wt t).question_count = scores.length ∧
      (statFor wt t).avg_score =
        round2 (scores.sum / (scores.length : ℚ)) ∧
      (statFor wt t).is_blind_spot =
        (decide (scores.sum / (scores.length : ℚ) < 60) &&
          decide (2 ≤ scores.length)) := by
  have ht' := dedupFirst_subset _ t ht
  rcases List.mem_map.mp ht' with ⟨p, hp, hpt⟩
  have hpf : p ∈ wt.filter (fun q => decide (q.2 = t)) :=
    List.mem_filter.mpr ⟨hp, by simp [hpt]⟩
  have hne : (wt.filter (fun q => decide (q.2 = t))).map
      (fun q => q.1.score) ≠ [] := by
    intro hnil
    rw [List.map_eq_nil_iff] at hnil
    rw [hnil] at hpf
    exact List.not_mem_nil p hpf
  have hemp : ((wt.filter (fun q => decide (q.2 = t))).map
      (fun q => q.1.score)).isEmpty = false := by
    cases hc : (wt.filter (fun q => decide (q.2 = t))).map
        (fun q => q.1.score) with
    | nil => exact absurd hc hne
    | cons a l => rfl
  refine ⟨(wt.filter (fun q => decide (q.2 = t))).map (fun q => q.1.score),
    hne, ?_, ?_, ?_⟩
  · simp only [statFor]
  · simp only [statFor, hemp, Bool.false_eq_true, if_false]
  · simp only [statFor, hemp, Bool.false_eq_true, if_false]

/-- C1 (amended): for every returned TopicStat, `is_blind_spot` equals
`(m < 60 and question_count >= 2)` where `m` is the **exact, unrounded**
mean of that topic's evaluation scores, and `avg_score` is `m` rounded
to 2 decimals.  (As stated — with the comparison applied to the rounded
`avg_score` field — the claim fails when `m` lies in `[59.995, 60)`:
see the counterexample.) -/
theorem C1_blind_spot_flag :
    ∀ (sessions : List PSession) (quizzes : List PQuiz)
      (attempts : List PAttempt) (resp : Option (List String)),
      ∀ stat ∈ (compute_analytics sessions quizzes attempts
          resp).topic_scores,
        ∃ scores : List ℚ, scores ≠ [] ∧
          stat.question_count = scores.length ∧
          stat.avg_score = round2 (scores.sum / (scores.length : ℚ)) ∧
          stat.is_blind_spot =
            (decide (scores.sum / (scores.length : ℚ) < 60) &&
              decide (2 ≤ scores.length)) := by
  intro sessions quizzes attempts resp stat hmem
  unfold compute_analytics at hmem
  cases hemp : attempts.isEmpty
  · rw [hemp] at hmem
    simp only [Bool.false_eq_true, if_false] at hmem
    rcases List.mem_map.mp hmem with ⟨t, ht, hstat⟩
    rcases statFor_mem_spec _ t ht with ⟨scores, h1, h2, h3, h4⟩
    exact ⟨scores, h1, hstat ▸ h2, hstat ▸ h3, hstat ▸ h4⟩
  · rw [hemp] at hmem
    simp at hmem

/-- C1 counterexample: two evaluations with scores 59.996 and 60 on one
topic give exact mean 59.998, so the stored (rounded) `avg_score` is
exactly 60 while `is_blind_spot` is true — the claimed equivalence
against the rounded field fails at this returned TopicStat. -/
theorem C1_blind_spot_flag_counterexample :
    (compute_analytics [⟨1, "S"⟩] [⟨1, 1, [⟨"q1", "What does X do?"⟩]⟩]
        [⟨1, 1, 60, "2024-01-01T10:00:00",
          [⟨"q1", some (14999/250), some "correct"⟩,
           ⟨"q1", some 60, some "correct"⟩]⟩]
        (some ["T"])).topic_scores = [⟨"T", 60, 2, 1, true⟩] ∧
      ((compute_analytics [⟨1, "S"⟩] [⟨1, 1, [⟨"q1", "What does X do?"⟩]⟩]
        [⟨1, 1, 60, "2024-01-01T10:00:00",
          [⟨"q1", some (14999/250), some "correct"⟩,
           ⟨"q1", some 60, some "correct"⟩]⟩]
        (some ["T"])).topic_scores.all
        (fun s => s.is_blind_spot ==
          (decide (s.avg_score < 60) && decide (2 ≤ s.question_count))))
        = false := by
  constructor
  · with_unfolding_all decide
  · with_unfolding_all decide

/-- Witness for C1: a store with a single evaluation of score 50 yields
one TopicStat, for which the amended characterization holds. -/
theorem C1_blind_spot_flag_witness :
    ∃ scores : List ℚ, scores ≠ [] ∧
      (⟨"General Concepts", 50, 1, 1, false⟩ : TopicStat).question_count
          = scores.length ∧
      (⟨"General Concepts", 50, 1, 1, false⟩ : TopicStat).avg_score =
        round2 (scores.sum / (scores.length : ℚ)) ∧
      (⟨"General Concepts", 50, 1, 1, false⟩ : TopicStat).is_blind_spot =
        (decide (scores.sum / (scores.length : ℚ) < 60) &&
          decide (2 ≤ scores.length)) :=
  C1_blind_spot_flag [⟨1, "S"⟩] [⟨1, 1, [⟨"q1", "Why?"⟩]⟩]
    [⟨1, 1, 50, "2024-01-01T00:00:00", [⟨"q1", some 50, some "partial"⟩]⟩]
    none ⟨"General Concepts", 50, 1, 1, false⟩
    (by with_unfolding_all decide)

/-! ### Claim C2 — risk scores within 0..100 -/

/-- C2 (amended): every metric-fallback score lies in `[0, 100]`, and
every file of a scan has `risk_score` in `[0, 100]` **provided** each
gateway-provided `risk_score` lies in `[0, 100]`.  (Unconditionally the
claim fails: the AI path stores the gateway value unclamped — see the
counterexample with a gateway score of 150.) -/
theorem C2_risk_score_bounds :
    (∀ a lc w : Nat,
      0 ≤ metric_based_score a lc w ∧ metric_based_score a lc w ≤ 100) ∧
    (∀ (dir : String) (discovered : List DFile) (max_files : Nat)
        (g : Nat → Option (List AIItem)) (focus : List String),
      (∀ (b : Nat) (items : List AIItem) (it : AIItem),
        g b = some items → it ∈ items →
          0 ≤ it.risk_score.getD 0 ∧ it.risk_score.getD 0 ≤ 100) →
      ∀ f ∈ (scan_directory dir discovered max_files g focus).files,
        0 ≤ f.risk_score ∧ f.risk_score ≤ 100) := by
  refine ⟨metric_based_score_bounds, ?_⟩
  intro dir discovered max_files g focus hg f hf
  have hf' : f ∈ scanMergedFiles dir discovered max_files g focus :=
    (scan_files_perm dir discovered max_files g focus).mem_iff.mp hf
  rcases mergeAux_mem _ _ _ _ 0 f hf' with ⟨i, fd, rfl⟩
  unfold mkResultFile
  cases hlk : lookupAI (buildAI g
      (numBatches (scanDatas dir discovered max_files).length)) (i : Int) with
  | none =>
    have hb := metric_based_score_bounds fd.import_count fd.line_count
      (importWeight (scanDatas dir discovered max_files) i)
    exact round2_mem_Icc _ hb.1 hb.2
  | some item =>
    rcases lookupAI_provenance _ _ _ _ hlk with ⟨b, _, items, hgb, hit⟩
    have hb := hg b items item hgb hit
    exact round2_mem_Icc _ hb.1 hb.2

/-- C2 counterexample: a well-formed gateway response carrying
`risk_score = 150` is stored unclamped, so the scanned file ends with
`risk_score = 150 > 100`. -/
theorem C2_risk_score_bounds_counterexample :
    (scan_directory "/r" [⟨"/r/a.py", 4, "x\n"⟩] 10
        (fun b => if b = 0 then
          some [⟨some 0, some 150, some [], some "w"⟩] else none)
        []).files.map (fun f => f.risk_score) = [150] := by
  with_unfolding_all decide

/-- Witness for C2: a scan against an unreachable gateway (so the
range hypothesis on gateway scores holds vacuously). -/
theorem C2_risk_score_bounds_witness :
    0 ≤ ((scan_directory "/r" [⟨"/r/a.py", 4, "x\n"⟩] 10 (fun _ => none)
        []).files.getD 0 default).risk_score ∧
      ((scan_directory "/r" [⟨"/r/a.py", 4, "x\n"⟩] 10 (fun _ => none)
        []).files.getD 0 default).risk_score ≤ 100 :=
  C2_risk_score_bounds.2 "/r" [⟨"/r/a.py", 4, "x\n"⟩] 10 (fun _ => none) []
    (fun b items it h => absurd h (by simp))
    (((scan_directory "/r" [⟨"/r/a.py", 4, "x\n"⟩] 10 (fun _ => none)
        []).files.getD 0 default))
    (by with_unfolding_all decide)

/-! ### Claim C3 — per-batch fallback granularity -/

/-- C3 (amended): a batch whose gateway call fails at transport level
or returns a non-list payload contributes no `ai_results` writes; a
JSON-shape mismatch partway through a response list keeps the writes
made before the first malformed item (so those files keep AI scores —
the batch does not fall back atomically); a file receives AI-provided
values iff some recorded write maps to its global index (an
out-of-range `index` in one batch's response can therefore score a file
of a different batch), and every file without such a write receives the
metric fallback; every recorded item comes from some successful
gateway response. -/
theorem C3_batch_fallback :
    (∀ (g : Nat → Option (List AIItem)) (b : Nat),
      g b = none → buildAI g (b + 1) = buildAI g b) ∧
    (∀ (bstart : Int) (pre rest : List AIItem) (bad : AIItem)
        (acc : List (Int × AIItem)), bad.index = none →
      procItems bstart (pre ++ bad :: rest) acc = procItems bstart pre acc) ∧
    (∀ (dir : String) (discovered : List DFile) (max_files : Nat)
        (g : Nat → Option (List AIItem)) (focus : List String) (i : Nat),
      i < (scanDatas dir discovered max_files).length →
      (lookupAI (buildAI g (numBatches (scanDatas dir discovered
          max_files).length)) (i : Int) = none →
        ((scanMergedFiles dir discovered max_files g focus).getD i
            default).risk_factors = [] ∧
          ((scanMergedFiles dir discovered max_files g focus).getD i
            default).blast_radius =
            fallbackBlast (importWeight (scanDatas dir discovered
              max_files) i) ∧
          ((scanMergedFiles dir discovered max_files g focus).getD i
            default).risk_score =
            metric_based_score
              ((scanDatas dir discovered max_files).getD i
                default).import_count
              ((scanDatas dir discovered max_files).getD i
                default).line_count
              (importWeight (scanDatas dir discovered max_files) i)) ∧
      (∀ it, lookupAI (buildAI g (numBatches (scanDatas dir discovered
          max_files).length)) (i : Int) = some it →
        ((scanMergedFiles dir discovered max_files g focus).getD i
            default).risk_score = round2 (it.risk_score.getD 0) ∧
          ((scanMergedFiles dir discovered max_files g focus).getD i
            default).risk_factors = it.risk_factors.getD [] ∧
          ((scanMergedFiles dir discovered max_files g focus).getD i
            default).blast_radius = it.blast_radius.getD "")) ∧
    (∀ (g : Nat → Option (List AIItem)) (nb : Nat) (i : Int) (it : AIItem),
      lookupAI (buildAI g nb) i = some it →
      ∃ b, b < nb ∧ ∃ items, g b = some items ∧ it ∈ items) := by
  refine ⟨?_, ?_, ?_, lookupAI_provenance⟩
  · intro g b hgb
    simp only [buildAI, hgb]
  · intro bstart pre rest bad acc hbad
    induction pre generalizing acc with
    | nil =>
      simp only [List.nil_append, procItems, hbad]
    | cons it pre ih =>
      simp only [List.cons_append, procItems]
      cases it.index with
      | none => rfl
      | some j => exact ih _
  · intro dir discovered max_files g focus i hi
    have hmerge := mergeAux_getD (scanDatas dir discovered max_files)
      (buildAI g (numBatches (scanDatas dir discovered max_files).length))
      focus (scanDatas dir discovered max_files) 0 i hi
    simp only [Nat.zero_add] at hmerge
    constructor
    · intro hnone
      unfold scanMergedFiles
      rw [hmerge]
      unfold mkResultFile
      rw [hnone]
      exact ⟨rfl, rfl, round2_metric _ _ _⟩
    · intro it hsome
      unfold scanMergedFiles
      rw [hmerge]
      unfold mkResultFile
      rw [hsome]
      exact ⟨rfl, rfl, rfl⟩

/-- C3 counterexample: a 1-file batch whose response has a valid first
item and then a malformed one (missing `"index"`).  The batch fails —
the source logs "using metric fallback" for it — yet the file keeps the
AI-provided score 80 and non-empty risk factors, so "every file of that
batch receives the metric fallback" is false. -/
theorem C3_batch_fallback_counterexample :
    (scan_directory "/r" [⟨"/r/a.py", 4, "x\n"⟩] 10
        (fun b => if b = 0 then
          some [⟨some 0, some 80, some ["opaque logic"], some "wide"⟩,
            ⟨none, none, none, none⟩] else none)
        []).files.map (fun f => (f.risk_score, f.risk_factors)) =
      [(80, ["opaque logic"])] := by
  with_unfolding_all decide

/-- Witness for C3: the per-file dichotomy instantiated on a 1-file
scan with an unreachable gateway. -/
theorem C3_batch_fallback_witness :
    ((scanMergedFiles "/r" [⟨"/r/a.py", 4, "x\n"⟩] 10 (fun _ => none)
        []).getD 0 default).risk_factors = [] :=
  ((C3_batch_fallback.2.2.1 "/r" [⟨"/r/a.py", 4, "x\n"⟩] 10 (fun _ => none)
    [] 0 (by decide)).1 (by decide)).1

/-! ### Claim C7 — reference weight counting -/

theorem countP_split {α : Type} (p q : α → Bool) (l : List α) :
    l.countP p =
      l.countP (fun a => p a && q a) + l.countP (fun a => p a && !q a) := by
  induction l with
  | nil => rfl
  | cons a l ih =>
    simp only [List.countP_cons]
    cases hp : p a <;> cases hq : q a <;> simp [hp, hq, ih] <;> omega

theorem countP_eq_single {α : Type} [DecidableEq α] (p : α → Bool) (j : α)
    (l : List α) :
    l.countP (fun a => p a && decide (a = j)) =
      if p j = true then l.count j else 0 := by
  induction l with
  | nil => simp
  | cons a l ih =>
    simp only [List.countP_cons, ih, List.count_cons]
    by_cases ha : a = j
    · subst ha
      cases hp : p a <;> simp [hp]
    · have hd : (decide (a = j)) = false := by simp [ha]
      have hbeq : ((a == j) : Bool) = false := by simp [ha]
      simp only [hd, Bool.and_false, Bool.false_eq_true, if_false,
        Nat.add_zero, hbeq]

theorem count_range_eq (j n : Nat) :
    (List.range n).count j = if j < n then 1 else 0 := by
  induction n with
  | zero => simp
  | succ n ih =>
    rw [List.range_succ, List.count_append, ih]
    by_cases h : j = n
    · subst h
      have h1 : List.count j [j] = 1 := by simp
      rw [h1, if_neg (by omega), if_pos (by omega)]
    · have h1 : List.count j [n] = 0 := by
        simp only [List.count_singleton]
        have hbeq : ((n == j) : Bool) = false := by
          simp only [beq_eq_false_iff_ne, ne_eq]
          exact fun hnj => h (Eq.symm hnj)
        rw [hbeq]
        rfl
      rw [h1]
      by_cases h2 : j < n
      · rw [if_pos h2, if_pos (by omega)]
      · rw [if_neg h2, if_neg (by omega)]

theorem importWeightAux_eq (stem : String) (i : Nat) (l : List FData) :
    ∀ s, importWeightAux stem i s l =
      (List.range l.length).countP
        (fun k => decide (s + k ≠ i) &&
          substrB stem ((l.getD k default).content)) := by
  induction l with
  | nil => intro s; rfl
  | cons fd rest ih =>
    intro s
    have hmap :
        (List.range rest.length).countP
            ((fun k => decide (s + k ≠ i) &&
              substrB stem (((fd :: rest).getD k default).content)) ∘
              Nat.succ) =
          (List.range rest.length).countP
            (fun k => decide ((s + 1) + k ≠ i) &&
              substrB stem ((rest.getD k default).content)) := by
      apply List.countP_congr
      intro k _
      have h1 : s + (k + 1) = (s + 1) + k := by omega
      simp only [Function.comp_apply, Nat.succ_eq_add_one,
        List.getD_cons_succ, h1]
    have hcond : (if s ≠ i ∧ substrB stem fd.content then 1 else 0) =
        (if (decide (s + 0 ≠ i) &&
          substrB stem (((fd :: rest).getD 0 default).content)) = true
          then 1 else 0) := by
      simp [Bool.and_eq_true, decide_eq_true_eq]
    simp only [importWeightAux, List.length_cons, List.range_succ_eq_map,
      List.countP_cons, List.countP_map, hmap, ih (s + 1), hcond]
    omega

/-- C7: the reference weight of file `i` is the number of *other* files
whose content contains file `i`'s stem as a literal substring, and the
relation is asymmetric: with `stem(A)` occurring in `B`'s content but
not vice versa, `B` adds 1 to `weight(A)` (the count splits off exactly
one for index `j`) while `A` contributes nothing to `weight(B)` (the
count is unchanged when index `i` is excluded). -/
theorem C7_reference_weight :
    ∀ (datas : List FData) (i j : Nat), i < datas.length →
      j < datas.length →
      importWeight datas i = (List.range datas.length).countP
          (fun k => decide (k ≠ i) &&
            substrB ((datas.getD i default).stem)
              ((datas.getD k default).content)) ∧
      (i ≠ j →
        substrB ((datas.getD i default).stem)
          ((datas.getD j default).content) = true →
        substrB ((datas.getD j default).stem)
          ((datas.getD i default).content) = false →
        importWeight datas i = 1 + (List.range datas.length).countP
            (fun k => (decide (k ≠ i) &&
              substrB ((datas.getD i default).stem)
                ((datas.getD k default).content)) && !decide (k = j)) ∧
        importWeight datas j = (List.range datas.length).countP
            (fun k => (decide (k ≠ j) &&
              substrB ((datas.getD j default).stem)
                ((datas.getD k default).content)) && !decide (k = i))) := by
  intro datas i j hi hj
  have hbase : ∀ m, m < datas.length →
      importWeight datas m = (List.range datas.length).countP
        (fun k => decide (k ≠ m) &&
          substrB ((datas.getD m default).stem)
            ((datas.getD k default).content)) := by
    intro m _
    unfold importWeight
    rw [importWeightAux_eq _ m datas 0]
    apply List.countP_congr
    intro k _
    simp
  refine ⟨hbase i hi, ?_⟩
  intro hij hsub hnsub
  constructor
  · rw [hbase i hi,
      countP_split
        (fun k => decide (k ≠ i) &&
          substrB ((datas.getD i default).stem)
            ((datas.getD k default).content))
        (fun k => !decide (k = j)) (List.range datas.length)]
    have hsingle :
        (List.range datas.length).countP
            (fun k => (decide (k ≠ i) &&
              substrB ((datas.getD i default).stem)
                ((datas.getD k default).content)) && !(!decide (k = j))) =
          1 := by
      have hre : (fun k => (decide (k ≠ i) &&
          substrB ((datas.getD i default).stem)
            ((datas.getD k default).content)) && !(!decide (k = j))) =
          (fun k => (decide (k ≠ i) &&
            substrB ((datas.getD i default).stem)
              ((datas.getD k default).content)) && decide (k = j)) := by
        funext k
        rw [Bool.not_not]
      rw [hre, countP_eq_single
        (fun k => decide (k ≠ i) &&
          substrB ((datas.getD i default).stem)
            ((datas.getD k default).content)) j]
      have hpj : (decide (j ≠ i) &&
          substrB ((datas.getD i default).stem)
            ((datas.getD j default).content)) = true := by
        simp only [Bool.and_eq_true, decide_eq_true_eq]
        exact ⟨Ne.symm hij, hsub⟩
      rw [if_pos hpj, count_range_eq, if_pos hj]
    rw [hsingle]
    omega
  · rw [hbase j hj,
      countP_split
        (fun k => decide (k ≠ j) &&
          substrB ((datas.getD j default).stem)
            ((datas.getD k default).content))
        (fun k => !decide (k = i)) (List.range datas.length)]
    have hzero :
        (List.range datas.length).countP
            (fun k => (decide (k ≠ j) &&
              substrB ((datas.getD j default).stem)
                ((datas.getD k default).content)) && !(!decide (k = i))) =
          0 := by
      have hre : (fun k => (decide (k ≠ j) &&
          substrB ((datas.getD j default).stem)
            ((datas.getD k default).content)) && !(!decide (k = i))) =
          (fun k => (decide (k ≠ j) &&
            substrB ((datas.getD j default).stem)
              ((datas.getD k default).content)) && decide (k = i)) := by
        funext k
        rw [Bool.not_not]
      rw [hre, countP_eq_single
        (fun k => decide (k ≠ j) &&
          substrB ((datas.getD j default).stem)
            ((datas.getD k default).content)) i]
      have hcond : ¬ ((decide (i ≠ j) &&
          substrB ((datas.getD j default).stem)
            ((datas.getD i default).content)) = true) := by
        simp only [Bool.and_eq_true, decide_eq_true_eq]
        intro h
        rw [hnsub] at h
        exact absurd h.2 (by simp)
      rw [if_neg hcond]
    rw [hzero]
    omega

/-- Witness for C7: two files where `bee.py` uses `auth` but not
conversely; `auth`'s weight counts `bee.py`, and `bee`'s weight is
unchanged when `auth.py` is excluded. -/
theorem C7_reference_weight_witness :
    importWeight
        [⟨"/r/auth.py", "auth.py", "python", 1, 0, "zzz\n", "auth"⟩,
         ⟨"/r/bee.py", "bee.py", "python", 1, 1, "use auth\n", "bee"⟩] 0 =
      1 + (List.range 2).countP
        (fun k => (decide (k ≠ 0) &&
          substrB "auth"
            (([⟨"/r/auth.py", "auth.py", "python", 1, 0, "zzz\n", "auth"⟩,
               ⟨"/r/bee.py", "bee.py", "python", 1, 1, "use auth\n",
                 "bee"⟩] : List FData).getD k default).content) &&
          !decide (k = 1)) :=
  ((C7_reference_weight
    [⟨"/r/auth.py", "auth.py", "python", 1, 0, "zzz\n", "auth"⟩,
     ⟨"/r/bee.py", "bee.py", "python", 1, 1, "use auth\n", "bee"⟩] 0 1
    (by decide) (by decide)).2 (by decide) (by decide) (by decide)).1

/-! ### Claim C5 — discovery cap keeps the largest files -/

/-- C5: every scan returns `min(discovered_count, max_files)` files;
when the candidate count is within the cap nothing is dropped (the
discovery list passes through unchanged); when it exceeds the cap,
every kept file is at least as large as every dropped file, and a
dropped file of equal size comes later in discovery order than any kept
file of that size (stated over discovery-indexed pairs, which the last
conjunct ties back to the plain capped list). -/
theorem C5_cap_min_length :
    (∀ (dir : String) (discovered : List DFile) (max_files : Nat)
        (g : Nat → Option (List AIItem)) (focus : List String),
      (scan_directory dir discovered max_files g focus).files.length =
        min discovered.length max_files) ∧
    (∀ (discovered : List DFile) (max_files : Nat),
      discovered.length ≤ max_files →
      capBySize (fun f => f.size) discovered max_files = discovered) ∧
    (∀ (l : List (Nat × DFile)) (max_files : Nat) (x y : Nat × DFile),
      l.Pairwise (fun a b => a.1 < b.1) →
      x ∈ capBySize (fun p => p.2.size) l max_files →
      y ∈ l → y ∉ capBySize (fun p => p.2.size) l max_files →
      y.2.size ≤ x.2.size ∧ (y.2.size = x.2.size → x.1 < y.1)) ∧
    (∀ (l : List (Nat × DFile)) (max_files : Nat),
      (capBySize (fun p => p.2.size) l max_files).map (fun p => p.2) =
        capBySize (fun f => f.size) (l.map (fun p => p.2)) max_files) := by
  refine ⟨scan_files_length, capBySize_of_le _, ?_, ?_⟩
  · intro l m x y hpw hx hy hnoty
    unfold capBySize at hx hnoty
    by_cases hover : m < l.length
    · rw [if_pos hover] at hx hnoty
      have hysort : y ∈ sortDescBy (fun p : Nat × DFile => p.2.size) l :=
        (sortDescBy_perm (fun p : Nat × DFile => p.2.size) l).mem_iff.mpr hy
      have hydrop : y ∈ (sortDescBy (fun p : Nat × DFile => p.2.size) l).drop m := by
        rcases List.mem_append.mp
            ((List.take_append_drop m
              (sortDescBy (fun p : Nat × DFile => p.2.size) l)) ▸ hysort) with h | h
        · exact absurd h hnoty
        · exact h
      have hpairs : (sortDescBy (fun p : Nat × DFile => p.2.size) l).Pairwise
          (fun a b => b.2.size ≤ a.2.size) := sortDescBy_pairwise _ l
      constructor
      · exact List.Sorted.rel_of_mem_take_of_mem_drop hpairs hx hydrop
      · intro heq
        have hfs : (sortDescBy (fun p : Nat × DFile => p.2.size) l).filter
            (fun a => decide (a.2.size = x.2.size)) =
            l.filter (fun a => decide (a.2.size = x.2.size)) := by
          apply sortDescBy_filter
          intro a b ha hb
          rw [decide_eq_true_eq] at ha hb
          rw [ha, hb]
          exact lt_irrefl _
        have hxf : x ∈ ((sortDescBy (fun p : Nat × DFile => p.2.size) l).take m).filter
            (fun a => decide (a.2.size = x.2.size)) :=
          List.mem_filter.mpr ⟨hx, by simp⟩
        have hyf : y ∈ ((sortDescBy (fun p : Nat × DFile => p.2.size) l).drop m).filter
            (fun a => decide (a.2.size = x.2.size)) :=
          List.mem_filter.mpr ⟨hydrop, by simp [heq]⟩
        have happ : ((sortDescBy (fun p : Nat × DFile => p.2.size) l).take m).filter
            (fun a => decide (a.2.size = x.2.size)) ++
            ((sortDescBy (fun p : Nat × DFile => p.2.size) l).drop m).filter
              (fun a => decide (a.2.size = x.2.size)) =
            l.filter (fun a => decide (a.2.size = x.2.size)) := by
          rw [← List.filter_append, List.take_append_drop]
          exact hfs
        have hpl : (l.filter
            (fun a => decide (a.2.size = x.2.size))).Pairwise
            (fun a b => a.1 < b.1) := hpw.filter _
        rw [← happ] at hpl
        exact (List.pairwise_append.mp hpl).2.2 x hxf y hyf
    · rw [if_neg hover] at hnoty
      exact absurd hy hnoty
  · intro l m
    unfold capBySize
    rw [List.length_map]
    by_cases hover : m < l.length
    · rw [if_pos hover, if_pos hover, List.map_take, sortDescBy_map]
    · rw [if_neg hover, if_neg hover]

/-- Witness for C5: for discovery list `[aa (3 bytes), bb (5), cc (1)]`
capped at 2, the kept pair `(1, bb)` dominates the dropped `(2, cc)` in
size, and the scan returns `min 3 2 = 2` files. -/
theorem C5_cap_min_length_witness :
    ((2 : Nat), (⟨"/r/cc.py", 1, "m\nn\n"⟩ : DFile)).2.size ≤
        ((1 : Nat), (⟨"/r/bb.py", 5, "p\nq\n"⟩ : DFile)).2.size ∧
      (scan_directory "/r"
        [⟨"/r/aa.py", 3, "x\ny\n"⟩, ⟨"/r/bb.py", 5, "p\nq\n"⟩,
         ⟨"/r/cc.py", 1, "m\nn\n"⟩] 2 (fun _ => none) []).files.length =
        min 3 2 :=
  ⟨(C5_cap_min_length.2.2.1
      [(0, ⟨"/r/aa.py", 3, "x\ny\n"⟩), (1, ⟨"/r/bb.py", 5, "p\nq\n"⟩),
       (2, ⟨"/r/cc.py", 1, "m\nn\n"⟩)] 2
      (1, ⟨"/r/bb.py", 5, "p\nq\n"⟩) (2, ⟨"/r/cc.py", 1, "m\nn\n"⟩)
      (by decide) (by decide) (by decide) (by decide)).1,
    C5_cap_min_length.1 "/r"
      [⟨"/r/aa.py", 3, "x\ny\n"⟩, ⟨"/r/bb.py", 5, "p\nq\n"⟩,
       ⟨"/r/cc.py", 1, "m\nn\n"⟩] 2 (fun _ => none) []⟩

/-! ### Claim C8 — descending stable order of the result -/

/-- C8 (amended): the returned file list is sorted descending by
`risk_score` and the sort is stable — files of any given score keep the
relative order of the pre-sort merged list.  That pre-sort order is the
discovery order when the candidate count is within `max_files`; when
the size cap triggers it is the size-capped order instead (see the
counterexample), which is the only correction to the claim. -/
theorem C8_sorted_stable :
    (∀ (dir : String) (discovered : List DFile) (max_files : Nat)
        (g : Nat → Option (List AIItem)) (focus : List String),
      (scan_directory dir discovered max_files g focus).files.Pairwise
        (fun a b => b.risk_score ≤ a.risk_score)) ∧
    (∀ (dir : String) (discovered : List DFile) (max_files : Nat)
        (g : Nat → Option (List AIItem)) (focus : List String) (q : ℚ),
      (scan_directory dir discovered max_files g focus).files.filter
          (fun f => decide (f.risk_score = q)) =
        (scanMergedFiles dir discovered max_files g focus).filter
          (fun f => decide (f.risk_score = q))) ∧
    (∀ (dir : String) (discovered : List DFile) (max_files : Nat)
        (g : Nat → Option (List AIItem)) (focus : List String),
      List.Perm (scan_directory dir discovered max_files g focus).files
        (scanMergedFiles dir discovered max_files g focus)) ∧
    (∀ (dir : String) (discovered : List DFile) (max_files : Nat)
        (g : Nat → Option (List AIItem)) (focus : List String),
      discovered.length ≤ max_files →
      (scanMergedFiles dir discovered max_files g focus).map
          (fun f => f.path) = discovered.map (fun f => f.path)) := by
  refine ⟨?_, ?_, scan_files_perm, ?_⟩
  · intro dir discovered max_files g focus
    unfold scan_directory
    split
    · simp
    · exact sortDescBy_pairwise _ _
  · intro dir discovered max_files g focus q
    unfold scan_directory
    split
    · rename_i h
      rw [List.isEmpty_iff] at h
      simp only [scanMergedFiles, scanDatas, h]
      rfl
    · apply sortDescBy_filter
      intro a b ha hb
      rw [decide_eq_true_eq] at ha hb
      rw [ha, hb]
      exact lt_irrefl _
  · intro dir discovered max_files g focus hle
    unfold scanMergedFiles
    rw [mergeAux_map_path]
    unfold scanDatas
    rw [capBySize_of_le _ _ _ hle, List.map_map]
    rfl

/-- C8 counterexample: a 3-file scan capped at 2 with an unreachable
gateway.  Files `aa.py` and `bb.py` end with the same risk score 0.4,
and the result lists `bb.py` before `aa.py` even though `aa.py` was
discovered first — equal-score files do *not* keep discovery order once
the size cap has reordered the candidates. -/
theorem C8_sorted_stable_counterexample :
    (scan_directory "/r"
        [⟨"/r/aa.py", 3, "x\ny\n"⟩, ⟨"/r/bb.py", 5, "p\nq\n"⟩,
         ⟨"/r/cc.py", 1, "m\nn\n"⟩] 2 (fun _ => none) []).files.map
        (fun f => (f.path, f.risk_score)) =
      [("/r/bb.py", 2/5), ("/r/aa.py", 2/5)] := by
  with_unfolding_all decide

/-- Witness for C8: with no cap (3 files, limit 10) the pre-sort merged
list is in discovery order. -/
theorem C8_sorted_stable_witness :
    (scanMergedFiles "/r"
        [⟨"/r/aa.py", 3, "x\ny\n"⟩, ⟨"/r/bb.py", 5, "p\nq\n"⟩,
         ⟨"/r/cc.py", 1, "m\nn\n"⟩] 10 (fun _ => none) []).map
        (fun f => f.path) =
      ["/r/aa.py", "/r/bb.py", "/r/cc.py"] := by
  rw [C8_sorted_stable.2.2.2 "/r"
    [⟨"/r/aa.py", 3, "x\ny\n"⟩, ⟨"/r/bb.py", 5, "p\nq\n"⟩,
     ⟨"/r/cc.py", 1, "m\nn\n"⟩] 10 (fun _ => none) [] (by decide)]
  rfl

/-! ### Claim C9 — zero stored records -/

/-- C9 counterexample: a store with one attempt whose `evaluations`
list is empty has zero evaluation records, yet the aggregation reports
`completed_sessions = 1` and a non-empty trend, so the claimed
fully-zeroed result does not hold for "zero stored evaluation
records". -/
theorem C9_zero_store_counterexample :
    (compute_analytics [⟨1, "S"⟩] []
        [⟨1, 1, 70, "2024-01-02T00:00:00", []⟩] none).total_questions_answered
        = 0 ∧
      (compute_analytics [⟨1, "S"⟩] []
        [⟨1, 1, 70, "2024-01-02T00:00:00", []⟩] none).completed_sessions = 1 ∧
      (compute_analytics [⟨1, "S"⟩] []
        [⟨1, 1, 70, "2024-01-02T00:00:00", []⟩] none).trend ≠ [] := by
  refine ⟨by decide, by decide, ?_⟩
  decide

/-- C9 (amended): with zero stored *attempts* the aggregation returns
the fully-zeroed success value — zero completed sessions and answered
questions, zero overall average, empty topic scores, blind spots and
trend — while `total_sessions` still counts the stored sessions. -/
theorem C9_zero_store :
    ∀ (sessions : List PSession) (quizzes : List PQuiz)
      (resp : Option (List String)),
      compute_analytics sessions quizzes [] resp =
        { total_sessions := sessions.length
          completed_sessions := 0
          total_questions_answered := 0
          overall_avg_score := 0
          topic_scores := []
          blind_spots := []
          trend := [] } := by
  intro sessions quizzes resp
  rfl

/-! ### Claim C10 — blind spots are the flagged sublist of topic scores -/

/-- C10: the blind-spot list is exactly the `is_blind_spot`-filtered
sublist of `topic_scores`: it is a sublist (same order, identical field
values), every flagged topic stat appears in it, and it contains only
flagged entries. -/
theorem C10_blind_spots_sublist :
    ∀ (sessions : List PSession) (quizzes : List PQuiz)
      (attempts : List PAttempt) (resp : Option (List String)),
      (compute_analytics sessions quizzes attempts resp).blind_spots =
        (compute_analytics sessions quizzes attempts resp).topic_scores.filter
          (fun t => t.is_blind_spot) ∧
      List.Sublist
        (compute_analytics sessions quizzes attempts resp).blind_spots
        (compute_analytics sessions quizzes attempts resp).topic_scores ∧
      (∀ t ∈ (compute_analytics sessions quizzes attempts resp).blind_spots,
        t.is_blind_spot = true ∧
          t ∈ (compute_analytics sessions quizzes attempts resp).topic_scores) ∧
      (∀ t ∈ (compute_analytics sessions quizzes attempts resp).topic_scores,
        t.is_blind_spot = true →
          t ∈ (compute_analytics sessions quizzes attempts resp).blind_spots) := by
  intro sessions quizzes attempts resp
  have hfilter :
      (compute_analytics sessions quizzes attempts resp).blind_spots =
        (compute_analytics sessions quizzes attempts resp).topic_scores.filter
          (fun t => t.is_blind_spot) := by
    unfold compute_analytics
    cases h : attempts.isEmpty
    · simp only [Bool.false_eq_true, if_false]
    · simp only [if_true]
      rfl
  refine ⟨hfilter, ?_, ?_, ?_⟩
  · rw [hfilter]
    exact List.filter_sublist _
  · intro t ht
    rw [hfilter] at ht
    rcases List.mem_filter.mp ht with ⟨hmem, hflag⟩
    exact ⟨hflag, hmem⟩
  · intro t ht hflag
    rw [hfilter]
    exact List.mem_filter.mpr ⟨ht, hflag⟩

/-- Witness for C10: a store whose single topic is a blind spot (two
answers with score 10); the flagged stat is in `blind_spots`. -/
theorem C10_blind_spots_sublist_witness :
    (⟨"General Concepts", 10, 2, 1, true⟩ : TopicStat) ∈
      (compute_analytics [⟨1, "S"⟩] [⟨1, 1, [⟨"q1", "What?"⟩]⟩]
        [⟨1, 1, 10, "2024-01-01T00:00:00",
          [⟨"q1", some 10, some "incorrect"⟩,
           ⟨"q1", some 10, some "incorrect"⟩]⟩] none).blind_spots :=
  (C10_blind_spots_sublist [⟨1, "S"⟩] [⟨1, 1, [⟨"q1", "What?"⟩]⟩]
    [⟨1, 1, 10, "2024-01-01T00:00:00",
      [⟨"q1", some 10, some "incorrect"⟩,
       ⟨"q1", some 10, some "incorrect"⟩]⟩] none).2.2.2
    ⟨"General Concepts", 10, 2, 1, true⟩ (by with_unfolding_all decide)
    (by with_unfolding_all decide)

end Vibecheck
